import Mathlib

/-!
# Idempotent apply of Kubernetes resources (`k8s/apply_k8s_resouces.go`)

A shallow embedding of the Go package `k8s`: the batch loop `ApplyK8sResource`,
the generic reconciler `CreateOrUpdateResource`, the typed reconciler
`ApplyKlusterlet` and the entry point `Apply`.

Pointers become explicit value passing: a call that receives `obj` by pointer
returns the contents it leaves in `obj`.  The cluster handle (`client.Client`)
is a record of transition functions over an arbitrary state `σ`, so a result
stated for every `client.Client` holds for every behaviour of the handle.
Every call the Go code makes to a collaborator outside the package (embedded
file set, YAML decoder, template engine, kubeconfig and handle construction,
cluster handle, `klog`) is recorded, in program order, as one `Event` of the
run's trace.
-/

namespace K8s

/-! ## Data model -/

/-- Go `error` values that flow through the package: a `*fs.PathError` (what
`embed.FS` returns), an API `*StatusError` carrying the reason and the HTTP
code of its status, an error wrapping another one (`fmt.Errorf` with `%w`), or
any other error value (decoder, template, transport, cancelled context). -/
inductive Error where
  | path (op : String) (path : String) (err : String)
  | status (reason : String) (code : Nat) (message : String)
  | wrapped (msg : String) (inner : Error)
  | other (msg : String)
  deriving DecidableEq, Repr

/-- Library table `knownReasons` of `k8s.io/apimachinery/pkg/api/errors`: the
status reasons the library knows; the unknown reason "" is not among them. -/
def knownReasons : List String :=
  ["Unauthorized", "Forbidden", "NotFound", "AlreadyExists", "Conflict", "Gone", "Invalid",
   "ServerTimeout", "Timeout", "TooManyRequests", "BadRequest", "MethodNotAllowed",
   "NotAcceptable", "RequestEntityTooLarge", "UnsupportedMediaType", "InternalError",
   "Expired", "ServiceUnavailable"]

/-- Library function `reasonAndCodeForError`: reason and code of the first
API status found in the error or in what it wraps; the unknown reason "" and
code 0 when there is none. -/
def reasonAndCodeForError : Error → String × Nat
  | Error.status reason code _ => (reason, code)
  | Error.wrapped _ inner => reasonAndCodeForError inner
  | Error.path _ _ _ => ("", 0)
  | Error.other _ => ("", 0)

/-- Library predicate `kerrors.IsNotFound`: the status reason is "NotFound",
or the reason is not a known one and the status code is 404. -/
def IsNotFound (err : Error) : Bool :=
  (reasonAndCodeForError err).1 == "NotFound"
    || (!(knownReasons.contains (reasonAndCodeForError err).1)
        && (reasonAndCodeForError err).2 == 404)

/-- The `metav1.ObjectMeta` fields of a resource document. -/
structure ObjectMeta where
  Name : String
  Namespace : String
  ResourceVersion : String
  UID : String
  Labels : List (String × String)
  Annotations : List (String × String)
  deriving DecidableEq, Repr

/-- Zero value of `ObjectMeta`. -/
def ObjectMeta.zero : ObjectMeta :=
  { Name := "", Namespace := "", ResourceVersion := "", UID := "", Labels := [], Annotations := [] }

/-- Type `unstructured.Unstructured`: a schema-less resource document.  The
well-known fields are kept apart; `body` holds every other top-level field
(`spec`, `rules`, `subjects`, ...) as key and serialized subtree. -/
structure Unstructured where
  apiVersion : String
  kind : String
  metadata : ObjectMeta
  body : List (String × String)
  deriving DecidableEq, Repr

/-- Accessor `GetName`. -/
def Unstructured.GetName (u : Unstructured) : String := u.metadata.Name

/-- Accessor `GetNamespace`. -/
def Unstructured.GetNamespace (u : Unstructured) : String := u.metadata.Namespace

/-- Accessor `GetResourceVersion`. -/
def Unstructured.GetResourceVersion (u : Unstructured) : String := u.metadata.ResourceVersion

/-- Accessor `GetAPIVersion`. -/
def Unstructured.GetAPIVersion (u : Unstructured) : String := u.apiVersion

/-- Accessor `GetKind`. -/
def Unstructured.GetKind (u : Unstructured) : String := u.kind

/-- Fields of `ocmapiv1.KlusterletSpec` that a rendered document sets. -/
structure KlusterletSpec where
  Namespace : String
  RegistrationImagePullSpec : String
  WorkImagePullSpec : String
  ClusterName : String
  ExternalServerURLs : List String
  deriving DecidableEq, Repr

/-- Type `ocmapiv1.Klusterlet`: type meta, embedded object meta, spec and
status (conditions). -/
structure Klusterlet where
  Kind : String
  APIVersion : String
  ObjectMeta : ObjectMeta
  Spec : KlusterletSpec
  Status : List String
  deriving DecidableEq, Repr

/-- Zero value `&ocmapiv1.Klusterlet{}`. -/
def Klusterlet.zero : Klusterlet :=
  { Kind := "", APIVersion := "", ObjectMeta := ObjectMeta.zero,
    Spec := { Namespace := "", RegistrationImagePullSpec := "", WorkImagePullSpec := "",
              ClusterName := "", ExternalServerURLs := [] },
    Status := [] }

/-- Promoted field `klusterlet.Name`. -/
def Klusterlet.Name (k : Klusterlet) : String := k.ObjectMeta.Name

/-- Promoted field `klusterlet.Namespace`. -/
def Klusterlet.Namespace (k : Klusterlet) : String := k.ObjectMeta.Namespace

/-- Promoted field `klusterlet.ResourceVersion`. -/
def Klusterlet.ResourceVersion (k : Klusterlet) : String := k.ObjectMeta.ResourceVersion

/-- Assignment `klusterlet.ResourceVersion = v`. -/
def Klusterlet.setResourceVersion (k : Klusterlet) (v : String) : Klusterlet :=
  { k with ObjectMeta := { k.ObjectMeta with ResourceVersion := v } }

/-- Type `client.ObjectKey` (a namespaced name). -/
structure ObjectKey where
  Name : String
  Namespace : String
  deriving DecidableEq, Repr

/-- Value of `klog.KObj(obj)`: the name and namespace of the object. -/
structure ObjectRef where
  Name : String
  Namespace : String
  deriving DecidableEq, Repr

/-- Go type `Args`: connection arguments of a render context; the three
handles are library types kept abstract. -/
structure Args (ρ ς χ : Type) where
  KubeConfig : ρ
  Schema : ς
  Client : χ

/-- Go type `HubInfo`: hub-side connection info. -/
structure HubInfo (θ : Type) where
  KubeConfig : θ
  APIServer : String

/-- Go type `Cluster`: the render context handed to the template. -/
structure Cluster (ρ ς χ θ : Type) where
  Name : String
  Args : Args ρ ς χ
  HubInfo : HubInfo θ

/-- One argument of a `klog` call. -/
inductive LogArg where
  | err (e : Error)
  | str (s : String)
  | ref (r : ObjectRef)
  deriving DecidableEq, Repr

/-- One call to a collaborator outside the package, with its arguments as
passed.  `α` is the Go type of the objects handed to the cluster handle. -/
inductive Event (α : Type) where
  | ReadFile (name : String)
  | Unmarshal (data : String)
  | ParseFS (file : String)
  | Execute
  | BuildConfigFromKubeconfigGetter (masterUrl : String)
  | New
  | Get (key : ObjectKey) (obj : α)
  | Create (obj : α)
  | Update (obj : α)
  | klogError (args : List LogArg)
  | klogInfoS (msg : String) (keysAndValues : List LogArg)
  deriving DecidableEq, Repr

/-- Interface `client.Client` restricted to the three methods the package
calls, at object type `α`.  Each method receives the handle's state and the
object behind the pointer, and returns the contents it leaves in the object,
the Go `error` (`none` is `nil`) and the next state.  The context argument is
only forwarded to the handle, whose behaviour is arbitrary here. -/
structure client.Client (σ α : Type) where
  Get : σ → ObjectKey → α → α × Option Error × σ
  Create : σ → α → α × Option Error × σ
  Update : σ → α → α × Option Error × σ

/-- Outcome of a function returning `error`: the error, the state of the
cluster handle afterwards and the collaborator calls made, in order. -/
structure Result (σ α : Type) where
  err : Option Error
  state : σ
  trace : List (Event α)

/-- Outcome of `CreateOrUpdateResource`: as `Result`, plus the contents left
in the caller's `resource` object. -/
structure ObjResult (σ α : Type) where
  obj : α
  err : Option Error
  state : σ
  trace : List (Event α)

/-! ## The reconciler -/

/-- Go function `CreateOrUpdateResource` (lines 109-118). -/
def CreateOrUpdateResource {σ : Type} (k8sClient : client.Client σ Unstructured)
    (resource : Unstructured) (s : σ) : ObjResult σ Unstructured :=
  let objKey : ObjectKey := { Name := resource.GetName, Namespace := resource.GetNamespace }
  match k8sClient.Get s objKey resource with
  | (resource1, some err, s1) =>
    if IsNotFound err then
      match k8sClient.Create s1 resource1 with
      | (resource2, err2, s2) =>
        { obj := resource2, err := err2, state := s2,
          trace := [Event.Get objKey resource, Event.Create resource1] }
    else
      { obj := resource1, err := some err, state := s1, trace := [Event.Get objKey resource] }
  | (resource1, none, s1) =>
    match k8sClient.Update s1 resource1 with
    | (resource2, err2, s2) =>
      { obj := resource2, err := err2, state := s2,
        trace := [Event.Get objKey resource, Event.Update resource1] }

/-! ## The embedded file set -/

/-- Type `embed.FS`: a read-only set of files, each a slash-separated path and
its contents. -/
structure EmbedFS where
  files : List (String × String)
  deriving DecidableEq, Repr

/-- Result of the directive `//go:embed dir`: every file below the directory
`dir`, named by `dir`, a slash and its path relative to `dir`. -/
def embedDir (dir : String) (entries : List (String × String)) : EmbedFS :=
  { files := entries.map (fun e => (dir ++ "/" ++ e.1, e.2)) }

/-- Whether `name` is a directory of the file set: the root, or a proper
ancestor of one of its files. -/
def EmbedFS.isDir (f : EmbedFS) (name : String) : Bool :=
  name == "." || f.files.any (fun e => (name.data ++ ['/']).isPrefixOf e.1.data)

/-- Method `embed.FS.ReadFile`: the contents of a file; a `*fs.PathError`
naming `name` for a directory ("read") or a name that is no file ("open"). -/
def EmbedFS.ReadFile (f : EmbedFS) (name : String) : Except Error String :=
  match f.files.lookup name with
  | some data => Except.ok data
  | none =>
    if f.isDir name then Except.error (Error.path "read" name "is a directory")
    else Except.error (Error.path "open" name "file does not exist")

/-! ## The batch loop -/

/-- One iteration of the `for` loop of `ApplyK8sResource` (lines 89-104) for
the name `file`: read, decode, reconcile.  `Unmarshal` is `yaml.Unmarshal` into
a fresh `unstructured.Unstructured`. -/
def ApplyK8sResource.iteration {σ : Type} (f : EmbedFS)
    (Unmarshal : String → Except Error Unstructured) (k8sClient : client.Client σ Unstructured)
    (file : String) (s : σ) : Result σ Unstructured :=
  match f.ReadFile file with
  | Except.error err =>
    { err := some err, state := s,
      trace := [Event.ReadFile file,
        Event.klogError [LogArg.err err, LogArg.str "Fail to read embed file ",
          LogArg.str "name:", LogArg.str file]] }
  | Except.ok data =>
    match Unmarshal data with
    | Except.error err =>
      { err := some err, state := s,
        trace := [Event.ReadFile file, Event.Unmarshal data,
          Event.klogError [LogArg.err err, LogArg.str "Fail to unmarshal file",
            LogArg.str "name", LogArg.str file]] }
    | Except.ok k8sObject =>
      let r := CreateOrUpdateResource k8sClient k8sObject s
      match r.err with
      | some err =>
        { err := some err, state := r.state,
          trace := [Event.ReadFile file, Event.Unmarshal data] ++ r.trace ++
            [Event.klogInfoS "Fail to create resource"
              [LogArg.str "object",
               LogArg.ref { Name := r.obj.GetName, Namespace := r.obj.GetNamespace },
               LogArg.str "apiVersion", LogArg.str r.obj.GetAPIVersion,
               LogArg.str "kind", LogArg.str r.obj.GetKind]] }
      | none =>
        { err := none, state := r.state,
          trace := [Event.ReadFile file, Event.Unmarshal data] ++ r.trace }

/-- Go function `ApplyK8sResource` (lines 87-107): the iterations in list
order, returning at the first one that yields an error. -/
def ApplyK8sResource {σ : Type} (f : EmbedFS)
    (Unmarshal : String → Except Error Unstructured) (k8sClient : client.Client σ Unstructured) :
    List String → σ → Result σ Unstructured
  | [], s => { err := none, state := s, trace := [] }
  | file :: files, s =>
    let r := ApplyK8sResource.iteration f Unmarshal k8sClient file s
    match r.err with
    | some err => { err := some err, state := r.state, trace := r.trace }
    | none =>
      let rest := ApplyK8sResource f Unmarshal k8sClient files r.state
      { err := rest.err, state := rest.state, trace := r.trace ++ rest.trace }

/-- The loading step of one iteration (lines 89-99): the decoded document
when `ReadFile` and `Unmarshal` both succeed, nothing when either fails. -/
def ApplyK8sResource.load (f : EmbedFS) (Unmarshal : String → Except Error Unstructured)
    (file : String) : Option Unstructured :=
  match f.ReadFile file with
  | Except.error _ => none
  | Except.ok data =>
    match Unmarshal data with
    | Except.error _ => none
    | Except.ok k8sObject => some k8sObject

/-- The name of the directory in the directive `//go:embed resources`
(line 22). -/
def embeddedDir : String := "resources"

/-- The list `files` of `Apply` (lines 71-78). -/
def Apply.files : List String :=
  ["resource/namespace_agent.yaml",
   "resource/namespace.yaml",
   "resource/cluster_role.yaml",
   "resource/cluster_role_binding.yaml",
   "resource/klusterlets.crd.yaml",
   "resource/service_account.yaml"]

/-- Go function `newConfigGetter` (lines 31-45): the getter that serializes
`configV1` with `yaml.Marshal` and loads the bytes with `clientcmd.Load`,
returning the first error met. -/
def newConfigGetter {Γ₁ Γ : Type} (Marshal : Γ₁ → Except Error String)
    (Load : String → Except Error Γ) (configV1 : Γ₁) : Unit → Except Error Γ :=
  fun _ =>
    match Marshal configV1 with
    | Except.error err => Except.error err
    | Except.ok newData =>
      match Load newData with
      | Except.error err => Except.error err
      | Except.ok config => Except.ok config

/-- The library calls behind `Client()`, over abstract types of the v1
kubeconfig `Γ₁`, the loaded kubeconfig `Γ`, the rest config `ρ` and the
handle `χ`: `new(clientcmdapiv1.Config)`, `yaml.Unmarshal` into it,
`yaml.Marshal`, `clientcmd.Load`, `clientcmd.BuildConfigFromKubeconfigGetter`
and `client.New`.  A call that fails still yields the value the library
returns beside the error. -/
structure Libraries (Γ₁ Γ ρ χ : Type) where
  newConfig : Γ₁
  Unmarshal : String → Γ₁ → Γ₁ × Option Error
  Marshal : Γ₁ → Except Error String
  Load : String → Except Error Γ
  BuildConfigFromKubeconfigGetter : String → (Unit → Except Error Γ) → ρ × Option Error
  New : ρ → χ × Option Error

/-- The `klog.Error(err)` record of an `if err != nil` guard: one record when
there is an error, none otherwise. -/
def logIfError {α : Type} : Option Error → List (Event α)
  | some err => [Event.klogError [LogArg.err err]]
  | none => []

/-- Go function `Client` (lines 48-67): decode the empty `configData`, build
the rest config through the getter, create the handle; each error is logged
and the function goes on.  Returns the handle and the calls made. -/
def Client {Γ₁ Γ ρ χ α : Type} (lib : Libraries Γ₁ Γ ρ χ) : χ × List (Event α) :=
  let configData := ""
  match lib.Unmarshal configData lib.newConfig with
  | (kubeConfig, err1) =>
    match lib.BuildConfigFromKubeconfigGetter ""
        (newConfigGetter lib.Marshal lib.Load kubeConfig) with
    | (spokeConfig, err2) =>
      match lib.New spokeConfig with
      | (newClient, err3) =>
        (newClient,
          [Event.Unmarshal configData] ++ logIfError err1
            ++ [Event.BuildConfigFromKubeconfigGetter ""] ++ logIfError err2
            ++ [Event.New] ++ logIfError err3)

/-- Go function `Apply` (lines 69-83): the handle of `Client()`, the batch
over the fixed list of names from the cluster state `s`, and the error of
the batch logged and dropped.  Returns the final state and the calls made. -/
def Apply {Γ₁ Γ ρ σ : Type} (lib : Libraries Γ₁ Γ ρ (client.Client σ Unstructured))
    (f : EmbedFS) (Unmarshal : String → Except Error Unstructured) (s : σ) :
    σ × List (Event Unstructured) :=
  match Client lib with
  | (newClient, t) =>
    let r := ApplyK8sResource f Unmarshal newClient Apply.files s
    match r.err with
    | some err => (r.state, t ++ r.trace ++ [Event.klogError [LogArg.err err]])
    | none => (r.state, t ++ r.trace)

/-! ## The typed reconciler -/

/-- Go function `ApplyKlusterlet` (lines 120-153).  `ParseFS` is
`template.ParseFS` on the package's file set `f`, `Execute` renders the
template with the render context `cluster` into the buffer, `Unmarshal` is
`yaml.Unmarshal` into a fresh `ocmapiv1.Klusterlet`.  The types of templates
and of the render context stay abstract: both are only handed on. -/
def ApplyKlusterlet {σ τ κ : Type} (f : EmbedFS)
    (ParseFS : EmbedFS → String → Except Error τ)
    (Execute : τ → κ → Except Error String)
    (Unmarshal : String → Except Error Klusterlet)
    (k8sClient : client.Client σ Klusterlet) (file : String) (cluster : κ) (s : σ) :
    Result σ Klusterlet :=
  match ParseFS f file with
  | Except.error err =>
    { err := some err, state := s,
      trace := [Event.ParseFS file,
        Event.klogError [LogArg.err err, LogArg.str "Fail to get Template from file",
          LogArg.str "name", LogArg.str file]] }
  | Except.ok t =>
    match Execute t cluster with
    | Except.error err =>
      { err := some err, state := s,
        trace := [Event.ParseFS file, Event.Execute,
          Event.klogError [LogArg.err err, LogArg.str "Fail to render klusterlet"]] }
    | Except.ok buf =>
      match Unmarshal buf with
      | Except.error err =>
        { err := some err, state := s,
          trace := [Event.ParseFS file, Event.Execute, Event.Unmarshal buf,
            Event.klogError [LogArg.err err, LogArg.str "Fail to Unmarshal klusterlet"]] }
      | Except.ok klusterlet =>
        let key : ObjectKey := { Name := klusterlet.Name, Namespace := klusterlet.Namespace }
        match k8sClient.Get s key Klusterlet.zero with
        | (_, some err, s1) =>
          if IsNotFound err then
            match k8sClient.Create s1 klusterlet with
            | (_, err2, s2) =>
              { err := err2, state := s2,
                trace := [Event.ParseFS file, Event.Execute, Event.Unmarshal buf,
                  Event.Get key Klusterlet.zero,
                  Event.klogInfoS "create klusterlet"
                    [LogArg.str "object",
                     LogArg.ref { Name := klusterlet.Name, Namespace := klusterlet.Namespace }],
                  Event.Create klusterlet] }
          else
            { err := some err, state := s1,
              trace := [Event.ParseFS file, Event.Execute, Event.Unmarshal buf,
                Event.Get key Klusterlet.zero] }
        | (latestKlusterlet, none, s1) =>
          let klusterlet1 := klusterlet.setResourceVersion latestKlusterlet.ResourceVersion
          match k8sClient.Update s1 klusterlet1 with
          | (_, err2, s2) =>
            { err := err2, state := s2,
              trace := [Event.ParseFS file, Event.Execute, Event.Unmarshal buf,
                Event.Get key Klusterlet.zero,
                Event.klogInfoS "update klusterlet"
                  [LogArg.str "object",
                   LogArg.ref { Name := klusterlet1.Name, Namespace := klusterlet1.Namespace }],
                Event.Update klusterlet1] }

/-! ## Reading a trace -/

/-- Whether the event is a `Get` call on the cluster handle. -/
def Event.isGet {α : Type} : Event α → Bool
  | Event.Get _ _ => true
  | _ => false

/-- Whether the event is a `Create` call on the cluster handle. -/
def Event.isCreate {α : Type} : Event α → Bool
  | Event.Create _ => true
  | _ => false

/-- Whether the event is an `Update` call on the cluster handle. -/
def Event.isUpdate {α : Type} : Event α → Bool
  | Event.Update _ => true
  | _ => false

/-- The names handed to `ReadFile`, in order. -/
def readNames {α : Type} (t : List (Event α)) : List String :=
  t.filterMap (fun e => match e with
    | Event.ReadFile name => some name
    | _ => none)

/-- The objects handed to `Get`, in order; every call of
`CreateOrUpdateResource` starts with one `Get` on its argument. -/
def reconciled {α : Type} (t : List (Event α)) : List α :=
  t.filterMap (fun e => match e with
    | Event.Get _ obj => some obj
    | _ => none)

/-! ## An in-memory cluster -/

/-- The identity key of a stored document. -/
def keyOf (o : Unstructured) : ObjectKey :=
  { Name := o.GetName, Namespace := o.GetNamespace }

/-- The error a cluster reports for a key that holds no object. -/
def notFound (key : ObjectKey) : Error :=
  Error.status "NotFound" 404 (key.Namespace ++ "/" ++ key.Name ++ " not found")

/-- Modelled from the spec: the cluster behind the handle, which is not part
of the repository.  The state is the list of stored objects.  `Get` returns
`NotFound` for an absent key and otherwise decodes the stored object into the
caller's object, replacing its contents (as the library's decoder does for an
`Unstructured`); `Create` stores the object under its
(name, namespace) key; `Update` replaces the object stored under that key and
reports `NotFound` when there is none. -/
def memCluster : client.Client (List Unstructured) Unstructured where
  Get := fun s key obj =>
    match s.find? (fun o => decide (keyOf o = key)) with
    | some live => (live, none, s)
    | none => (obj, some (notFound key), s)
  Create := fun s obj => (obj, none, s ++ [obj])
  Update := fun s obj =>
    if s.any (fun o => decide (keyOf o = keyOf obj)) then
      (obj, none, s.map (fun o => if keyOf o = keyOf obj then obj else o))
    else (obj, some (notFound (keyOf obj)), s)

/-- The objects the cluster stores under `key`. -/
def storedAt (s : List Unstructured) (key : ObjectKey) : List Unstructured :=
  s.filter (fun o => decide (keyOf o = key))

/-- The state of the cluster handle after reconciling the documents `objs`,
in order, from the state `s`. -/
def stateAfter {σ : Type} (c : client.Client σ Unstructured) (objs : List Unstructured)
    (s : σ) : σ :=
  objs.foldl (fun st o => (CreateOrUpdateResource c o st).state) s

/-- First reconcile of `resource` against the empty in-memory cluster. -/
def firstRun (resource : Unstructured) : ObjResult (List Unstructured) Unstructured :=
  CreateOrUpdateResource memCluster resource []

/-- Second reconcile, of the same resource object, right after the first. -/
def secondRun (resource : Unstructured) : ObjResult (List Unstructured) Unstructured :=
  CreateOrUpdateResource memCluster (firstRun resource).obj (firstRun resource).state

/-! ## Sample data -/

/-- A loaded namespace document (no resourceVersion). -/
def sampleNamespace : Unstructured :=
  { apiVersion := "v1", kind := "Namespace",
    metadata := { ObjectMeta.zero with Name := "open-cluster-management-agent" },
    body := [] }

/-- A desired service-account document, as loaded: no resourceVersion. -/
def desiredAccount : Unstructured :=
  { apiVersion := "v1", kind := "ServiceAccount",
    metadata := { ObjectMeta.zero with Name := "klusterlet", Namespace := "agent" },
    body := [("imagePullSecrets", "new-secret")] }

/-- The live object under the same key: resourceVersion "5", another body. -/
def liveAccount : Unstructured :=
  { apiVersion := "v1", kind := "ServiceAccount",
    metadata := { ObjectMeta.zero with
      Name := "klusterlet", Namespace := "agent", ResourceVersion := "5", UID := "u-1" },
    body := [("imagePullSecrets", "old-secret")] }

/-- A handle whose every `Get` is refused with a permission error and whose
writes succeed. -/
def forbiddenClient : client.Client Unit Unstructured where
  Get := fun s _ obj => (obj, some (Error.status "Forbidden" 403 "get is forbidden"), s)
  Create := fun s obj => (obj, none, s)
  Update := fun s obj => (obj, none, s)

/-- A handle whose every `Get` fails with a wrapped status of code 404 and
empty reason, and whose writes succeed. -/
def bare404Client : client.Client Unit Unstructured where
  Get := fun s _ obj =>
    (obj, some (Error.wrapped "get failed" (Error.status "" 404 "page not found")), s)
  Create := fun s obj => (obj, none, s)
  Update := fun s obj => (obj, none, s)

/-- Library calls for the examples, over trivial types: the empty kubeconfig
decodes, no rest config can be built from it, and no handle can be created
without one; the handle returned beside that error is `forbiddenClient`. -/
def sampleLibraries : Libraries Unit Unit Unit (client.Client Unit Unstructured) where
  newConfig := ()
  Unmarshal := fun _ c => (c, none)
  Marshal := fun _ => Except.ok ""
  Load := fun _ => Except.ok ()
  BuildConfigFromKubeconfigGetter := fun _ _ =>
    ((), some (Error.other "invalid configuration: no configuration has been provided"))
  New := fun _ =>
    (forbiddenClient, some (Error.other "must provide non-nil rest.Config to client.New"))

/-- The desired Klusterlet "klusterlet-1", as a template renders it. -/
def desiredKlusterlet : Klusterlet :=
  { Kind := "Klusterlet", APIVersion := "operator.open-cluster-management.io/v1",
    ObjectMeta := { ObjectMeta.zero with Name := "klusterlet-1", Labels := [("app", "agent")] },
    Spec := { Namespace := "open-cluster-management-agent",
              RegistrationImagePullSpec := "registration:v2", WorkImagePullSpec := "work:v2",
              ClusterName := "cluster-1", ExternalServerURLs := ["https://hub:6443"] },
    Status := [] }

/-- The live Klusterlet under the same name: resourceVersion "9", an older
spec and a status. -/
def liveKlusterlet : Klusterlet :=
  { Kind := "Klusterlet", APIVersion := "operator.open-cluster-management.io/v1",
    ObjectMeta := { ObjectMeta.zero with
      Name := "klusterlet-1", ResourceVersion := "9", UID := "u-9" },
    Spec := { Namespace := "open-cluster-management-agent",
              RegistrationImagePullSpec := "registration:v1", WorkImagePullSpec := "work:v1",
              ClusterName := "cluster-1", ExternalServerURLs := [] },
    Status := ["Applied"] }

/-- A handle that holds `liveKlusterlet`: `Get` decodes it into the object,
writes succeed. -/
def liveKlusterletClient : client.Client Unit Klusterlet where
  Get := fun s _ _ => (liveKlusterlet, none, s)
  Create := fun s obj => (obj, none, s)
  Update := fun s obj => (obj, none, s)

/-- A file set embedding one template below the directory "resources". -/
def sampleTemplates : EmbedFS :=
  embedDir "resources" [("klusterlet.yaml", "metadata.name: klusterlet-")]

/-- A template engine for the examples: a template is the text of its file. -/
def sampleParseFS (f : EmbedFS) (file : String) : Except Error String :=
  f.ReadFile file

/-- Rendering for the examples: the template text followed by the name of the
render context. -/
def sampleExecute (t : String) (cluster : Cluster Unit Unit Unit Unit) : Except Error String :=
  Except.ok (t ++ cluster.Name)

/-- Decoder for the examples: accepts the one rendered document. -/
def sampleUnmarshalKlusterlet (buf : String) : Except Error Klusterlet :=
  if buf = "metadata.name: klusterlet-1" then Except.ok desiredKlusterlet
  else Except.error (Error.other "yaml: unmarshal errors")

/-- The render context of the examples. -/
def sampleCluster : Cluster Unit Unit Unit Unit :=
  { Name := "1", Args := { KubeConfig := (), Schema := (), Client := () },
    HubInfo := { KubeConfig := (), APIServer := "https://hub:6443" } }

/-- A decoder for the examples: accepts the one well-formed document and
rejects every other input with the decoder's own error. -/
def sampleUnmarshal (data : String) : Except Error Unstructured :=
  if data = "kind: Namespace" then Except.ok sampleNamespace
  else Except.error (Error.other "error converting YAML to JSON: yaml: did not find expected node content")

/-- A file set holding the documents "a" and "c" and no document "b". -/
def abcFiles : EmbedFS :=
  { files := [("a", "kind: Namespace"), ("c", "kind: Namespace")] }

/-- A file set embedding two documents with the same malformed contents. -/
def twinFiles : EmbedFS :=
  embedDir "resources" [("a.yaml", "kind: ["), ("b.yaml", "kind: [")]

/-! ## The reconciler: verb selection -/

/-- The error the in-memory cluster reports for an absent key is a NotFound
error. -/
theorem IsNotFound_notFound (key : ObjectKey) : IsNotFound (notFound key) = true := by
  simp [IsNotFound, notFound, reasonAndCodeForError]

/-- What `IsNotFound` accepts and rejects: a status of reason "NotFound"
whatever its code, a status of code 404 whose reason is empty or unknown, and
such a status under wrapping are accepted; a 404 with a known other reason, a
status of another code, a path error and any other error are rejected. -/
theorem IsNotFound_examples :
    IsNotFound (Error.status "NotFound" 404 "not found") = true
      ∧ IsNotFound (Error.status "NotFound" 0 "") = true
      ∧ IsNotFound (Error.status "" 404 "the server could not find the resource") = true
      ∧ IsNotFound (Error.status "Vanished" 404 "") = true
      ∧ IsNotFound (Error.wrapped "get failed" (Error.status "NotFound" 404 "")) = true
      ∧ IsNotFound (Error.status "Forbidden" 404 "") = false
      ∧ IsNotFound (Error.status "Forbidden" 403 "get is forbidden") = false
      ∧ IsNotFound (Error.status "" 500 "") = false
      ∧ IsNotFound (Error.path "open" "a" "file does not exist") = false
      ∧ IsNotFound (Error.other "context deadline exceeded") = false := by
  decide

/-- Every run of `CreateOrUpdateResource` starts with the `Get` on its
argument, so `reconciled` lists the argument. -/
theorem reconciled_CreateOrUpdateResource {σ : Type} (c : client.Client σ Unstructured)
    (resource : Unstructured) (s : σ) :
    reconciled (CreateOrUpdateResource c resource s).trace = [resource] := by
  unfold CreateOrUpdateResource
  rcases hg : c.Get s { Name := resource.GetName, Namespace := resource.GetNamespace } resource
    with ⟨r1, _ | e, s1⟩
  · simp [hg, reconciled]
  · by_cases hnf : IsNotFound e = true <;> simp [hg, hnf, reconciled]

/-- No run of `CreateOrUpdateResource` reads a file. -/
theorem readNames_CreateOrUpdateResource {σ : Type} (c : client.Client σ Unstructured)
    (resource : Unstructured) (s : σ) :
    readNames (CreateOrUpdateResource c resource s).trace = [] := by
  unfold CreateOrUpdateResource
  rcases hg : c.Get s { Name := resource.GetName, Namespace := resource.GetNamespace } resource
    with ⟨r1, _ | e, s1⟩
  · simp [hg, readNames]
  · by_cases hnf : IsNotFound e = true <;> simp [hg, hnf, readNames]

/-- C1: when `Get` at the key (name, namespace) of the resource fails with an
error that `IsNotFound` accepts, `CreateOrUpdateResource` calls `Create` exactly
once, on the resource object as that `Get` left it, calls `Update` never, and
returns exactly what that `Create` call returns. -/
theorem CreateOrUpdateResource_notFound_creates {σ : Type} (c : client.Client σ Unstructured)
    (resource resource1 : Unstructured) (e : Error) (s s1 : σ)
    (hget : c.Get s { Name := resource.GetName, Namespace := resource.GetNamespace } resource
      = (resource1, some e, s1))
    (hnf : IsNotFound e = true) :
    (CreateOrUpdateResource c resource s).trace
        = [Event.Get { Name := resource.GetName, Namespace := resource.GetNamespace } resource,
           Event.Create resource1]
      ∧ (CreateOrUpdateResource c resource s).err = (c.Create s1 resource1).2.1
      ∧ (CreateOrUpdateResource c resource s).state = (c.Create s1 resource1).2.2
      ∧ (CreateOrUpdateResource c resource s).trace.countP Event.isCreate = 1
      ∧ (CreateOrUpdateResource c resource s).trace.countP Event.isUpdate = 0 := by
  simp [CreateOrUpdateResource, hget, hnf, Event.isCreate, Event.isUpdate]

/-- C1 at concrete inputs: an empty cluster, whose `Get` reports the reason
"NotFound", and a handle whose `Get` fails with a wrapped status of code 404
and empty reason; both errors are accepted by `IsNotFound` and lead to one
`Create` of the document. -/
theorem CreateOrUpdateResource_notFound_creates_witness :
    ((CreateOrUpdateResource memCluster sampleNamespace []).trace
        = [Event.Get { Name := "open-cluster-management-agent", Namespace := "" } sampleNamespace,
           Event.Create sampleNamespace]
      ∧ (CreateOrUpdateResource memCluster sampleNamespace []).err = none
      ∧ (CreateOrUpdateResource memCluster sampleNamespace []).state = [sampleNamespace])
    ∧ (IsNotFound (Error.wrapped "get failed" (Error.status "" 404 "page not found")) = true
      ∧ (CreateOrUpdateResource bare404Client desiredAccount ()).trace
        = [Event.Get { Name := "klusterlet", Namespace := "agent" } desiredAccount,
           Event.Create desiredAccount]
      ∧ (CreateOrUpdateResource bare404Client desiredAccount ()).err = none) :=
  have h := CreateOrUpdateResource_notFound_creates memCluster sampleNamespace sampleNamespace
    (notFound { Name := "open-cluster-management-agent", Namespace := "" }) [] [] rfl
    (by decide)
  have h2 := CreateOrUpdateResource_notFound_creates bare404Client desiredAccount desiredAccount
    (Error.wrapped "get failed" (Error.status "" 404 "page not found")) () () rfl (by decide)
  ⟨⟨h.1, h.2.1, h.2.2.1⟩, ⟨by decide, h2.1, h2.2.1⟩⟩

/-- C2: when `Get` fails with an error that is not a NotFound error,
`CreateOrUpdateResource` returns that very error and the only call it makes
on the cluster handle is the `Get`: neither `Create` nor `Update`. -/
theorem CreateOrUpdateResource_other_error_returned {σ : Type} (c : client.Client σ Unstructured)
    (resource resource1 : Unstructured) (e : Error) (s s1 : σ)
    (hget : c.Get s { Name := resource.GetName, Namespace := resource.GetNamespace } resource
      = (resource1, some e, s1))
    (hnf : IsNotFound e = false) :
    (CreateOrUpdateResource c resource s).err = some e
      ∧ (CreateOrUpdateResource c resource s).trace
        = [Event.Get { Name := resource.GetName, Namespace := resource.GetNamespace } resource]
      ∧ (CreateOrUpdateResource c resource s).state = s1
      ∧ (CreateOrUpdateResource c resource s).trace.countP Event.isCreate = 0
      ∧ (CreateOrUpdateResource c resource s).trace.countP Event.isUpdate = 0 := by
  simp [CreateOrUpdateResource, hget, hnf, Event.isCreate, Event.isUpdate]

/-- C2 at a concrete input: a handle that refuses the `Get` as forbidden. -/
theorem CreateOrUpdateResource_other_error_returned_witness :
    (CreateOrUpdateResource forbiddenClient desiredAccount ()).err
        = some (Error.status "Forbidden" 403 "get is forbidden")
      ∧ (CreateOrUpdateResource forbiddenClient desiredAccount ()).trace
        = [Event.Get { Name := "klusterlet", Namespace := "agent" } desiredAccount] :=
  have h := CreateOrUpdateResource_other_error_returned forbiddenClient desiredAccount
    desiredAccount (Error.status "Forbidden" 403 "get is forbidden") () () rfl (by decide)
  ⟨h.1, h.2.1⟩

/-- C3: when `Get` succeeds and leaves a live object with resourceVersion `v`
in the resource, `CreateOrUpdateResource` calls `Update` once and `Create`
never, every object handed to `Update` has resourceVersion `v` whatever the
loaded document carried, and the function returns what that `Update` returns. -/
theorem CreateOrUpdateResource_found_updates {σ : Type} (c : client.Client σ Unstructured)
    (resource live : Unstructured) (v : String) (s s1 : σ)
    (hget : c.Get s { Name := resource.GetName, Namespace := resource.GetNamespace } resource
      = (live, none, s1))
    (hv : live.GetResourceVersion = v) :
    (CreateOrUpdateResource c resource s).trace
        = [Event.Get { Name := resource.GetName, Namespace := resource.GetNamespace } resource,
           Event.Update live]
      ∧ (∀ sent, Event.Update sent ∈ (CreateOrUpdateResource c resource s).trace →
          sent.GetResourceVersion = v)
      ∧ (CreateOrUpdateResource c resource s).err = (c.Update s1 live).2.1
      ∧ (CreateOrUpdateResource c resource s).state = (c.Update s1 live).2.2
      ∧ (CreateOrUpdateResource c resource s).trace.countP Event.isUpdate = 1
      ∧ (CreateOrUpdateResource c resource s).trace.countP Event.isCreate = 0 := by
  simp [CreateOrUpdateResource, hget, hv, Event.isCreate, Event.isUpdate]

/-- C3 at a concrete input: the desired document carries resourceVersion ""
and the cluster holds the object at resourceVersion "5". -/
theorem CreateOrUpdateResource_found_updates_witness :
    desiredAccount.GetResourceVersion = ""
      ∧ (∀ sent, Event.Update sent
            ∈ (CreateOrUpdateResource memCluster desiredAccount [liveAccount]).trace →
          sent.GetResourceVersion = "5")
      ∧ (CreateOrUpdateResource memCluster desiredAccount [liveAccount]).trace.countP
          Event.isUpdate = 1
      ∧ (CreateOrUpdateResource memCluster desiredAccount [liveAccount]).err = none :=
  have h := CreateOrUpdateResource_found_updates memCluster desiredAccount liveAccount "5"
    [liveAccount] [liveAccount] rfl rfl
  ⟨rfl, h.2.1, h.2.2.2.2.1, rfl⟩

/-- Whatever the cluster handle, the only object `CreateOrUpdateResource` hands
to `Update` is the one the successful `Get` left in the resource: the function
has no merge step of its own. -/
theorem CreateOrUpdateResource_update_sends_what_Get_left {σ : Type}
    (c : client.Client σ Unstructured) (resource live : Unstructured) (s s1 : σ)
    (hget : c.Get s { Name := resource.GetName, Namespace := resource.GetNamespace } resource
      = (live, none, s1)) :
    ∀ sent, Event.Update sent ∈ (CreateOrUpdateResource c resource s).trace → sent = live := by
  simp [CreateOrUpdateResource, hget]

/-- C4 (the code departs from the claim): with the object `liveAccount` stored
in the cluster and the desired document `desiredAccount` at the same key with
another body, the `Get` replaces the contents of the resource by the live
object, so the object handed to `Update` is the live object, with the live
body; the desired body is sent nowhere and the cluster is left as it was. -/
theorem CreateOrUpdateResource_update_sends_live_body :
    keyOf desiredAccount = keyOf liveAccount
      ∧ desiredAccount.body = [("imagePullSecrets", "new-secret")]
      ∧ liveAccount.body = [("imagePullSecrets", "old-secret")]
      ∧ (CreateOrUpdateResource memCluster desiredAccount [liveAccount]).trace
        = [Event.Get { Name := "klusterlet", Namespace := "agent" } desiredAccount,
           Event.Update liveAccount]
      ∧ (∀ sent, Event.Update sent
            ∈ (CreateOrUpdateResource memCluster desiredAccount [liveAccount]).trace →
          sent.body = [("imagePullSecrets", "old-secret")] ∧ sent.body ≠ desiredAccount.body)
      ∧ (CreateOrUpdateResource memCluster desiredAccount [liveAccount]).err = none
      ∧ (CreateOrUpdateResource memCluster desiredAccount [liveAccount]).state = [liveAccount] := by
  refine ⟨rfl, rfl, rfl, rfl, ?_, rfl, rfl⟩
  intro sent hsent
  have h := CreateOrUpdateResource_update_sends_what_Get_left memCluster desiredAccount
    liveAccount [liveAccount] [liveAccount] rfl sent hsent
  subst h
  exact ⟨rfl, by decide⟩

/-! ## The reconciler: idempotence on the in-memory cluster -/

/-- C7: for every resource document, two reconciles in a row against the
initially empty in-memory cluster both succeed; the first makes one `Create`,
the second one `Update` and no `Create`; and afterwards exactly one object, the
document, is stored under its key. -/
theorem CreateOrUpdateResource_twice_idempotent (resource : Unstructured) :
    (firstRun resource).err = none
      ∧ (firstRun resource).trace
          = [Event.Get (keyOf resource) resource, Event.Create resource]
      ∧ (secondRun resource).err = none
      ∧ (secondRun resource).trace
          = [Event.Get (keyOf resource) resource, Event.Update resource]
      ∧ (secondRun resource).trace.countP Event.isCreate = 0
      ∧ storedAt (secondRun resource).state (keyOf resource) = [resource]
      ∧ (storedAt (secondRun resource).state (keyOf resource)).length = 1 := by
  have h1 : firstRun resource
      = { obj := resource, err := none, state := [resource],
          trace := [Event.Get (keyOf resource) resource, Event.Create resource] } := by
    have hk : ({ Name := resource.GetName, Namespace := resource.GetNamespace } : ObjectKey)
        = keyOf resource := rfl
    simp [firstRun, CreateOrUpdateResource, memCluster, IsNotFound_notFound, hk]
  have h2 : secondRun resource
      = { obj := resource, err := none, state := [resource],
          trace := [Event.Get (keyOf resource) resource, Event.Update resource] } := by
    simp [secondRun, h1, CreateOrUpdateResource, memCluster, keyOf]
  simp [h1, h2, storedAt, Event.isCreate]

/-! ## The typed reconciler -/

/-- C5: in `ApplyKlusterlet`, when the template renders and decodes to the
desired Klusterlet `d` and `Get` succeeds with the live Klusterlet `l`, the
`Get` is handed a fresh zero value and not `d`; the object handed to `Update`
has the ResourceVersion of `l` and is `d` in every other field (putting the
ResourceVersion of `d` back gives `d`); `Create` is not called; and the result
is that of the `Update`. -/
theorem ApplyKlusterlet_update_keeps_desired {σ τ κ : Type} (f : EmbedFS)
    (ParseFS : EmbedFS → String → Except Error τ) (Execute : τ → κ → Except Error String)
    (Unmarshal : String → Except Error Klusterlet) (c : client.Client σ Klusterlet)
    (file : String) (cluster : κ) (s s1 : σ) (t : τ) (buf : String) (d l : Klusterlet)
    (hparse : ParseFS f file = Except.ok t) (hexec : Execute t cluster = Except.ok buf)
    (hyaml : Unmarshal buf = Except.ok d)
    (hget : c.Get s { Name := d.Name, Namespace := d.Namespace } Klusterlet.zero
      = (l, none, s1)) :
    ∃ sent : Klusterlet,
      (ApplyKlusterlet f ParseFS Execute Unmarshal c file cluster s).trace
          = [Event.ParseFS file, Event.Execute, Event.Unmarshal buf,
             Event.Get { Name := d.Name, Namespace := d.Namespace } Klusterlet.zero,
             Event.klogInfoS "update klusterlet"
               [LogArg.str "object", LogArg.ref { Name := d.Name, Namespace := d.Namespace }],
             Event.Update sent]
        ∧ sent.ResourceVersion = l.ResourceVersion
        ∧ sent.setResourceVersion d.ResourceVersion = d
        ∧ sent.Kind = d.Kind ∧ sent.APIVersion = d.APIVersion
        ∧ sent.Spec = d.Spec ∧ sent.Status = d.Status
        ∧ sent.Name = d.Name ∧ sent.Namespace = d.Namespace
        ∧ sent.ObjectMeta.UID = d.ObjectMeta.UID
        ∧ sent.ObjectMeta.Labels = d.ObjectMeta.Labels
        ∧ sent.ObjectMeta.Annotations = d.ObjectMeta.Annotations
        ∧ (ApplyKlusterlet f ParseFS Execute Unmarshal c file cluster s).err
            = (c.Update s1 sent).2.1
        ∧ (ApplyKlusterlet f ParseFS Execute Unmarshal c file cluster s).state
            = (c.Update s1 sent).2.2
        ∧ (ApplyKlusterlet f ParseFS Execute Unmarshal c file cluster s).trace.countP
            Event.isCreate = 0 := by
  refine ⟨d.setResourceVersion l.ResourceVersion, ?_⟩
  simp only [ApplyKlusterlet, hparse, hexec, hyaml, hget]
  simp [Klusterlet.setResourceVersion, Klusterlet.ResourceVersion, Klusterlet.Name,
    Klusterlet.Namespace, Event.isCreate]

/-- C5 at a concrete input: the template renders "klusterlet-1" and the live
instance carries resourceVersion "9" and another spec. -/
theorem ApplyKlusterlet_update_keeps_desired_witness :
    ∃ sent : Klusterlet,
      (ApplyKlusterlet sampleTemplates sampleParseFS sampleExecute sampleUnmarshalKlusterlet
          liveKlusterletClient "resources/klusterlet.yaml" sampleCluster ()).trace
          = [Event.ParseFS "resources/klusterlet.yaml", Event.Execute,
             Event.Unmarshal "metadata.name: klusterlet-1",
             Event.Get { Name := "klusterlet-1", Namespace := "" } Klusterlet.zero,
             Event.klogInfoS "update klusterlet"
               [LogArg.str "object", LogArg.ref { Name := "klusterlet-1", Namespace := "" }],
             Event.Update sent]
        ∧ sent.ResourceVersion = "9"
        ∧ sent.Spec = desiredKlusterlet.Spec
        ∧ sent.Spec ≠ liveKlusterlet.Spec :=
  (ApplyKlusterlet_update_keeps_desired sampleTemplates sampleParseFS sampleExecute
    sampleUnmarshalKlusterlet liveKlusterletClient "resources/klusterlet.yaml" sampleCluster
    () () "metadata.name: klusterlet-" "metadata.name: klusterlet-1" desiredKlusterlet
    liveKlusterlet rfl rfl rfl rfl).elim
    (fun sent h => ⟨sent, h.1, h.2.1, h.2.2.2.2.2.1, by rw [h.2.2.2.2.2.1]; decide⟩)

/-! ## Bound on the calls of one invocation -/

/-- C8: whatever the input and whatever the cluster handle does, one
invocation of `CreateOrUpdateResource` makes exactly one `Get` call and at most
one write call (`Create` and `Update` together), hence at most two calls in
all and no second attempt; and one invocation of `ApplyKlusterlet` makes at
most one `Get` call and at most one write call. -/
theorem one_get_at_most_one_write {σ σk τ κ : Type} (c : client.Client σ Unstructured)
    (resource : Unstructured) (s : σ) (f : EmbedFS)
    (ParseFS : EmbedFS → String → Except Error τ) (Execute : τ → κ → Except Error String)
    (Unmarshal : String → Except Error Klusterlet) (ck : client.Client σk Klusterlet)
    (file : String) (cluster : κ) (sk : σk) :
    (CreateOrUpdateResource c resource s).trace.countP Event.isGet = 1
      ∧ (CreateOrUpdateResource c resource s).trace.countP Event.isCreate
          + (CreateOrUpdateResource c resource s).trace.countP Event.isUpdate ≤ 1
      ∧ (CreateOrUpdateResource c resource s).trace.length ≤ 2
      ∧ (ApplyKlusterlet f ParseFS Execute Unmarshal ck file cluster sk).trace.countP
          Event.isGet ≤ 1
      ∧ (ApplyKlusterlet f ParseFS Execute Unmarshal ck file cluster sk).trace.countP
            Event.isCreate
          + (ApplyKlusterlet f ParseFS Execute Unmarshal ck file cluster sk).trace.countP
            Event.isUpdate ≤ 1 := by
  have hre : (CreateOrUpdateResource c resource s).trace.countP Event.isGet = 1
      ∧ (CreateOrUpdateResource c resource s).trace.countP Event.isCreate
          + (CreateOrUpdateResource c resource s).trace.countP Event.isUpdate ≤ 1
      ∧ (CreateOrUpdateResource c resource s).trace.length ≤ 2 := by
    unfold CreateOrUpdateResource
    rcases hg : c.Get s { Name := resource.GetName, Namespace := resource.GetNamespace } resource
      with ⟨r1, _ | e, s1⟩
    · simp [hg, Event.isGet, Event.isCreate, Event.isUpdate]
    · by_cases hnf : IsNotFound e = true <;>
        simp [hg, hnf, Event.isGet, Event.isCreate, Event.isUpdate]
  have hkl : (ApplyKlusterlet f ParseFS Execute Unmarshal ck file cluster sk).trace.countP
          Event.isGet ≤ 1
      ∧ (ApplyKlusterlet f ParseFS Execute Unmarshal ck file cluster sk).trace.countP
            Event.isCreate
          + (ApplyKlusterlet f ParseFS Execute Unmarshal ck file cluster sk).trace.countP
            Event.isUpdate ≤ 1 := by
    unfold ApplyKlusterlet
    rcases hp : ParseFS f file with e | t
    · simp [hp, Event.isGet, Event.isCreate, Event.isUpdate]
    rcases he : Execute t cluster with e | buf
    · simp [hp, he, Event.isGet, Event.isCreate, Event.isUpdate]
    rcases hu : Unmarshal buf with e | d
    · simp [hp, he, hu, Event.isGet, Event.isCreate, Event.isUpdate]
    rcases hg : ck.Get sk { Name := d.Name, Namespace := d.Namespace } Klusterlet.zero
      with ⟨l, _ | e, s1⟩
    · simp [hp, he, hu, hg, Event.isGet, Event.isCreate, Event.isUpdate]
    · by_cases hnf : IsNotFound e = true <;>
        simp [hp, he, hu, hg, hnf, Event.isGet, Event.isCreate, Event.isUpdate]
  exact ⟨hre.1, hre.2.1, hre.2.2, hkl.1, hkl.2⟩

/-! ## The embedded file set and the names of `Apply` -/

/-- A list that passes `List.isPrefixOf` is the initial segment of its
length. -/
theorem take_of_isPrefixOf {α : Type} [BEq α] [LawfulBEq α] :
    ∀ (l₁ l₂ : List α), l₁.isPrefixOf l₂ = true → l₂.take l₁.length = l₁
  | [], _, _ => by simp
  | _ :: _, [], h => by simp [List.isPrefixOf] at h
  | a :: l₁, b :: l₂, h => by
    simp only [List.isPrefixOf, Bool.and_eq_true, beq_iff_eq] at h
    simp [h.1, take_of_isPrefixOf l₁ l₂ h.2]

/-- Every path of `embedDir dir entries` starts with the characters of `dir`. -/
theorem embedDir_path_starts_with_dir (dir : String) (entries : List (String × String))
    (e : String × String) (he : e ∈ (embedDir dir entries).files) :
    e.1.data.take dir.length = dir.data := by
  simp only [embedDir, List.mem_map] at he
  obtain ⟨a, _, rfl⟩ := he
  show List.take dir.data.length (dir ++ "/" ++ a.1).data = dir.data
  rw [String.data_append, String.data_append, List.append_assoc,
    List.take_append_of_le_length (Nat.le_refl _), List.take_length]

/-- Reading a name that does not start with the characters of `dir` from a
file set whose paths all do fails with the "open" path error: the name is
neither a file nor a directory of the set. -/
theorem ReadFile_outside (f : EmbedFS) (dir name : String)
    (hstart : ∀ e ∈ f.files, e.1.data.take dir.length = dir.data)
    (hlen : dir.length ≤ name.length)
    (hne : name.data.take dir.length ≠ dir.data) (hdot : name ≠ ".") :
    f.ReadFile name = Except.error (Error.path "open" name "file does not exist") := by
  obtain ⟨fs⟩ := f
  simp only at hstart
  have hlook : List.lookup name fs = none := by
    induction fs with
    | nil => rfl
    | cons e rest ih =>
      obtain ⟨k, v⟩ := e
      have hk : (name == k) = false := by
        rw [beq_eq_false_iff_ne]
        intro h
        exact hne (h ▸ hstart (k, v) (List.mem_cons_self _ _))
      simp only [List.lookup, hk]
      exact ih (fun e he => hstart e (List.mem_cons_of_mem _ he))
  have hdir : (EmbedFS.mk fs).isDir name = false := by
    simp only [EmbedFS.isDir, Bool.or_eq_false_iff, beq_eq_false_iff_ne, ne_eq]
    refine ⟨hdot, ?_⟩
    rw [Bool.eq_false_iff]
    intro hany
    rw [List.any_eq_true] at hany
    obtain ⟨e, he, hp⟩ := hany
    have h1 := take_of_isPrefixOf _ _ hp
    have h2 : e.1.data.take dir.length = name.data.take dir.length := by
      have h3 := congrArg (List.take dir.length) h1
      rw [List.take_take] at h3
      have hle : dir.length ≤ (name.data ++ ['/']).length := by
        simp only [List.length_append, List.length_singleton]
        exact Nat.le_succ_of_le hlen
      rw [Nat.min_eq_left hle] at h3
      rw [h3, List.take_append_of_le_length hlen]
    exact hne (h2 ▸ hstart e he)
  simp only [EmbedFS.ReadFile, hlook, hdir]
  rfl

/-- C10 (the code departs from the claim): whatever the directory "resources"
holds, none of the six names of `Apply` lies below it, each fails to read from
the embedded file set, and `ApplyK8sResource` on the list of `Apply` returns the
path error of the first name after a single `ReadFile`, without any call on
the cluster handle; `Apply`, after the calls of `Client()`, makes that one
read, logs the error twice and returns with the cluster untouched. -/
theorem Apply_files_outside_embedded_dir {Γ₁ Γ ρ σ : Type}
    (entries : List (String × String))
    (Unmarshal : String → Except Error Unstructured) (c : client.Client σ Unstructured)
    (lib : Libraries Γ₁ Γ ρ (client.Client σ Unstructured)) (s : σ) :
    (∀ name ∈ Apply.files,
        name.data.take embeddedDir.length ≠ embeddedDir.data
        ∧ (embedDir embeddedDir entries).ReadFile name
            = Except.error (Error.path "open" name "file does not exist"))
      ∧ (ApplyK8sResource (embedDir embeddedDir entries) Unmarshal c Apply.files s).err
          = some (Error.path "open" "resource/namespace_agent.yaml" "file does not exist")
      ∧ (ApplyK8sResource (embedDir embeddedDir entries) Unmarshal c Apply.files s).trace
          = [Event.ReadFile "resource/namespace_agent.yaml",
             Event.klogError
               [LogArg.err (Error.path "open" "resource/namespace_agent.yaml"
                  "file does not exist"),
                LogArg.str "Fail to read embed file ", LogArg.str "name:",
                LogArg.str "resource/namespace_agent.yaml"]]
      ∧ (ApplyK8sResource (embedDir embeddedDir entries) Unmarshal c Apply.files s).state = s
      ∧ (Apply lib (embedDir embeddedDir entries) Unmarshal s).2
          = (Client lib).2
            ++ [Event.ReadFile "resource/namespace_agent.yaml",
             Event.klogError
               [LogArg.err (Error.path "open" "resource/namespace_agent.yaml"
                  "file does not exist"),
                LogArg.str "Fail to read embed file ", LogArg.str "name:",
                LogArg.str "resource/namespace_agent.yaml"],
             Event.klogError
               [LogArg.err (Error.path "open" "resource/namespace_agent.yaml"
                  "file does not exist")]]
      ∧ (Apply lib (embedDir embeddedDir entries) Unmarshal s).1 = s := by
  have hall : ∀ name ∈ Apply.files,
      name.data.take embeddedDir.length ≠ embeddedDir.data
      ∧ (embedDir embeddedDir entries).ReadFile name
          = Except.error (Error.path "open" name "file does not exist") := by
    intro name hname
    simp only [Apply.files, List.mem_cons, List.mem_singleton, List.not_mem_nil, or_false] at hname
    rcases hname with h | h | h | h | h | h <;> subst h <;>
      exact ⟨by decide, ReadFile_outside _ embeddedDir _
        (embedDir_path_starts_with_dir embeddedDir entries) (by decide) (by decide) (by decide)⟩
  have hfirst := (hall "resource/namespace_agent.yaml" (by simp [Apply.files])).2
  refine ⟨hall, ?_, ?_, ?_, ?_, ?_⟩ <;>
    simp [Apply, Apply.files, ApplyK8sResource, ApplyK8sResource.iteration, hfirst]

/-- The run of `Apply` on the example libraries and any embedded directory:
two records of `Client()`, then the failed read of the first name. -/
theorem Apply_sample_run (entries : List (String × String))
    (Unmarshal : String → Except Error Unstructured) :
    (Apply sampleLibraries (embedDir embeddedDir entries) Unmarshal ()).2
      = [Event.Unmarshal "",
         Event.BuildConfigFromKubeconfigGetter "",
         Event.klogError [LogArg.err
           (Error.other "invalid configuration: no configuration has been provided")],
         Event.New,
         Event.klogError [LogArg.err
           (Error.other "must provide non-nil rest.Config to client.New")],
         Event.ReadFile "resource/namespace_agent.yaml",
         Event.klogError
           [LogArg.err (Error.path "open" "resource/namespace_agent.yaml"
              "file does not exist"),
            LogArg.str "Fail to read embed file ", LogArg.str "name:",
            LogArg.str "resource/namespace_agent.yaml"],
         Event.klogError
           [LogArg.err (Error.path "open" "resource/namespace_agent.yaml"
              "file does not exist")]] := by
  have hread : (embedDir embeddedDir entries).ReadFile "resource/namespace_agent.yaml"
      = Except.error (Error.path "open" "resource/namespace_agent.yaml"
          "file does not exist") :=
    ReadFile_outside _ embeddedDir _
      (embedDir_path_starts_with_dir embeddedDir entries) (by decide) (by decide) (by decide)
  simp [Apply, Client, sampleLibraries, logIfError, Apply.files, ApplyK8sResource,
    ApplyK8sResource.iteration, hread]

/-! ## The batch loop: order and stop at the first failure -/

/-- One iteration reads exactly its own name. -/
theorem readNames_iteration {σ : Type} (f : EmbedFS)
    (U : String → Except Error Unstructured) (c : client.Client σ Unstructured) (x : String) (s : σ) :
    readNames (ApplyK8sResource.iteration f U c x s).trace = [x] := by
  unfold ApplyK8sResource.iteration
  rcases hr : f.ReadFile x with e | data
  · simp [hr, readNames]
  rcases hu : U data with e | obj
  · simp [hr, hu, readNames]
  have h := readNames_CreateOrUpdateResource c obj s
  unfold readNames at h
  rcases he : (CreateOrUpdateResource c obj s).err with _ | e <;>
    simp [hr, hu, he, readNames, List.filterMap_append, h]

/-- One iteration reconciles the document of its name when it loads, and
nothing otherwise. -/
theorem reconciled_iteration {σ : Type} (f : EmbedFS)
    (U : String → Except Error Unstructured) (c : client.Client σ Unstructured) (x : String) (s : σ) :
    reconciled (ApplyK8sResource.iteration f U c x s).trace
      = (ApplyK8sResource.load f U x).toList := by
  unfold ApplyK8sResource.iteration ApplyK8sResource.load
  rcases hr : f.ReadFile x with e | data
  · simp [hr, reconciled]
  rcases hu : U data with e | obj
  · simp [hr, hu, reconciled]
  have h := reconciled_CreateOrUpdateResource c obj s
  unfold reconciled at h
  rcases he : (CreateOrUpdateResource c obj s).err with _ | e <;>
    simp [hr, hu, he, reconciled, List.filterMap_append, h]

/-- An iteration that returns no error has loaded its document. -/
theorem load_isSome_of_iteration {σ : Type} (f : EmbedFS)
    (U : String → Except Error Unstructured) (c : client.Client σ Unstructured) (x : String) (s : σ)
    (h : (ApplyK8sResource.iteration f U c x s).err = none) :
    ∃ obj, ApplyK8sResource.load f U x = some obj := by
  unfold ApplyK8sResource.iteration at h
  unfold ApplyK8sResource.load
  rcases hr : f.ReadFile x with e | data
  · simp [hr] at h
  rcases hu : U data with e | obj
  · simp [hr, hu] at h
  · exact ⟨obj, by simp [hr, hu]⟩

/-- Unfolding of the loop at a non-empty list whose first iteration succeeds. -/
theorem ApplyK8sResource_cons_ok {σ : Type} (f : EmbedFS)
    (U : String → Except Error Unstructured) (c : client.Client σ Unstructured)
    (x : String) (files : List String) (s : σ)
    (h : (ApplyK8sResource.iteration f U c x s).err = none) :
    (ApplyK8sResource f U c (x :: files) s).err
        = (ApplyK8sResource f U c files (ApplyK8sResource.iteration f U c x s).state).err
      ∧ (ApplyK8sResource f U c (x :: files) s).state
        = (ApplyK8sResource f U c files (ApplyK8sResource.iteration f U c x s).state).state
      ∧ (ApplyK8sResource f U c (x :: files) s).trace
        = (ApplyK8sResource.iteration f U c x s).trace
          ++ (ApplyK8sResource f U c files (ApplyK8sResource.iteration f U c x s).state).trace := by
  simp [ApplyK8sResource, h]

/-- Unfolding of the loop at a non-empty list whose first iteration fails. -/
theorem ApplyK8sResource_cons_err {σ : Type} (f : EmbedFS)
    (U : String → Except Error Unstructured) (c : client.Client σ Unstructured)
    (x : String) (files : List String) (s : σ) (e : Error)
    (h : (ApplyK8sResource.iteration f U c x s).err = some e) :
    (ApplyK8sResource f U c (x :: files) s).err = some e
      ∧ (ApplyK8sResource f U c (x :: files) s).state
        = (ApplyK8sResource.iteration f U c x s).state
      ∧ (ApplyK8sResource f U c (x :: files) s).trace
        = (ApplyK8sResource.iteration f U c x s).trace := by
  simp [ApplyK8sResource, h]

/-- A run over `pre ++ post` whose part over `pre` succeeds continues with
`post` from the state reached. -/
theorem ApplyK8sResource_append {σ : Type} (f : EmbedFS)
    (U : String → Except Error Unstructured) (c : client.Client σ Unstructured)
    (pre post : List String) (s : σ)
    (h : (ApplyK8sResource f U c pre s).err = none) :
    (ApplyK8sResource f U c (pre ++ post) s).err
        = (ApplyK8sResource f U c post (ApplyK8sResource f U c pre s).state).err
      ∧ (ApplyK8sResource f U c (pre ++ post) s).state
        = (ApplyK8sResource f U c post (ApplyK8sResource f U c pre s).state).state
      ∧ (ApplyK8sResource f U c (pre ++ post) s).trace
        = (ApplyK8sResource f U c pre s).trace
          ++ (ApplyK8sResource f U c post (ApplyK8sResource f U c pre s).state).trace := by
  induction pre generalizing s with
  | nil => simp [ApplyK8sResource]
  | cons x pre ih =>
    rcases hx : (ApplyK8sResource.iteration f U c x s).err with _ | e
    · have h1 := ApplyK8sResource_cons_ok f U c x pre s hx
      have h2 := ApplyK8sResource_cons_ok f U c x (pre ++ post) s hx
      have h3 := ih (ApplyK8sResource.iteration f U c x s).state (h1.1 ▸ h)
      rw [List.cons_append, h2.1, h2.2.1, h2.2.2, h1.2.1, h1.2.2, h3.1, h3.2.1, h3.2.2,
        List.append_assoc]
      exact ⟨rfl, rfl, rfl⟩
    · have h1 := ApplyK8sResource_cons_err f U c x pre s e hx
      rw [h1.1] at h
      cases h

/-- A run that returns an error has a first failing name: the names before it
succeed and its own iteration, from the state they leave, returns that error. -/
theorem ApplyK8sResource_first_failure {σ : Type} (f : EmbedFS)
    (U : String → Except Error Unstructured) (c : client.Client σ Unstructured)
    (files : List String) (s : σ) (e : Error)
    (h : (ApplyK8sResource f U c files s).err = some e) :
    ∃ pre x post, files = pre ++ x :: post
      ∧ (ApplyK8sResource f U c pre s).err = none
      ∧ (ApplyK8sResource.iteration f U c x (ApplyK8sResource f U c pre s).state).err
          = some e := by
  induction files generalizing s with
  | nil => simp [ApplyK8sResource] at h
  | cons x files ih =>
    rcases hx : (ApplyK8sResource.iteration f U c x s).err with _ | e1
    · have h1 := ApplyK8sResource_cons_ok f U c x files s hx
      obtain ⟨pre, y, post, hsplit, hpre, hy⟩ := ih _ (h1.1 ▸ h)
      have h2 := ApplyK8sResource_cons_ok f U c x pre s hx
      refine ⟨x :: pre, y, post, by rw [hsplit, List.cons_append], h2.1.trans hpre, ?_⟩
      rw [h2.2.1]
      exact hy
    · have h1 := ApplyK8sResource_cons_err f U c x files s e1 hx
      rw [h1.1] at h
      refine ⟨[], x, files, rfl, rfl, ?_⟩
      rw [← h]
      exact hx

/-- A run that returns no error has read every name, in order, and has
reconciled the document of every name, in order. -/
theorem ApplyK8sResource_ok_trace {σ : Type} (f : EmbedFS)
    (U : String → Except Error Unstructured) (c : client.Client σ Unstructured)
    (files : List String) (s : σ)
    (h : (ApplyK8sResource f U c files s).err = none) :
    readNames (ApplyK8sResource f U c files s).trace = files
      ∧ (reconciled (ApplyK8sResource f U c files s).trace).map some
          = files.map (ApplyK8sResource.load f U) := by
  induction files generalizing s with
  | nil => simp [ApplyK8sResource, readNames, reconciled]
  | cons x files ih =>
    rcases hx : (ApplyK8sResource.iteration f U c x s).err with _ | e1
    · have h1 := ApplyK8sResource_cons_ok f U c x files s hx
      have h2 := ih _ (h1.1 ▸ h)
      obtain ⟨obj, hobj⟩ := load_isSome_of_iteration f U c x s hx
      have hr := readNames_iteration f U c x s
      have hc := reconciled_iteration f U c x s
      unfold readNames at hr h2 ⊢
      unfold reconciled at hc h2 ⊢
      rw [h1.2.2, List.filterMap_append, List.filterMap_append, hr, hc, h2.1, hobj,
        List.map_append, h2.2]
      simp [hobj]
    · have h1 := ApplyK8sResource_cons_err f U c x files s e1 hx
      rw [h1.1] at h
      cases h

/-- A run over `pre ++ post` whose part over `pre` fails is the run over
`pre`. -/
theorem ApplyK8sResource_append_err {σ : Type} (f : EmbedFS)
    (U : String → Except Error Unstructured) (c : client.Client σ Unstructured)
    (pre post : List String) (s : σ) (e : Error)
    (h : (ApplyK8sResource f U c pre s).err = some e) :
    (ApplyK8sResource f U c (pre ++ post) s).err = some e := by
  induction pre generalizing s with
  | nil => simp [ApplyK8sResource] at h
  | cons x pre ih =>
    rcases hx : (ApplyK8sResource.iteration f U c x s).err with _ | e1
    · have h1 := ApplyK8sResource_cons_ok f U c x pre s hx
      have h2 := ApplyK8sResource_cons_ok f U c x (pre ++ post) s hx
      rw [List.cons_append, h2.1]
      exact ih _ (h1.1 ▸ h)
    · have h1 := ApplyK8sResource_cons_err f U c x pre s e1 hx
      have h2 := ApplyK8sResource_cons_err f U c x (pre ++ post) s e1 hx
      rw [List.cons_append, h2.1, ← h, h1.1]

/-- An iteration whose name loads returns the error of the reconcile of the
loaded document and leaves the state that reconcile leaves. -/
theorem iteration_of_loaded {σ : Type} (f : EmbedFS)
    (U : String → Except Error Unstructured) (c : client.Client σ Unstructured)
    (x : String) (s : σ) (obj : Unstructured)
    (h : ApplyK8sResource.load f U x = some obj) :
    (ApplyK8sResource.iteration f U c x s).err = (CreateOrUpdateResource c obj s).err
      ∧ (ApplyK8sResource.iteration f U c x s).state
          = (CreateOrUpdateResource c obj s).state := by
  unfold ApplyK8sResource.load at h
  unfold ApplyK8sResource.iteration
  rcases hr : f.ReadFile x with e | data
  · simp [hr] at h
  rcases hu : U data with e | o
  · simp [hr, hu] at h
  simp only [hr, hu, Option.some.injEq] at h
  subst h
  rcases he : (CreateOrUpdateResource c o s).err with _ | e <;> simp [hr, hu, he]

/-- An iteration returns the error `e` exactly when the read of its name
fails with `e`, or the decoding of what was read fails with `e`, or the
reconcile of the decoded document returns `e`. -/
theorem iteration_err_iff {σ : Type} (f : EmbedFS)
    (U : String → Except Error Unstructured) (c : client.Client σ Unstructured)
    (x : String) (s : σ) (e : Error) :
    (ApplyK8sResource.iteration f U c x s).err = some e ↔
      (f.ReadFile x = Except.error e
        ∨ (∃ data, f.ReadFile x = Except.ok data ∧ U data = Except.error e)
        ∨ (∃ obj, ApplyK8sResource.load f U x = some obj
            ∧ (CreateOrUpdateResource c obj s).err = some e)) := by
  unfold ApplyK8sResource.iteration ApplyK8sResource.load
  rcases hr : f.ReadFile x with e1 | data
  · simp [hr]
  rcases hu : U data with e1 | o
  · simp [hr, hu]
  rcases he : (CreateOrUpdateResource c o s).err with _ | e1 <;> simp [hr, hu, he]

/-- The state an iteration leaves is the state after reconciling what its
name loaded: the state it started from when the load failed. -/
theorem iteration_state {σ : Type} (f : EmbedFS)
    (U : String → Except Error Unstructured) (c : client.Client σ Unstructured)
    (x : String) (s : σ) :
    (ApplyK8sResource.iteration f U c x s).state
      = stateAfter c (ApplyK8sResource.load f U x).toList s := by
  unfold ApplyK8sResource.iteration ApplyK8sResource.load stateAfter
  rcases hr : f.ReadFile x with e1 | data
  · simp [hr]
  rcases hu : U data with e1 | o
  · simp [hr, hu]
  rcases he : (CreateOrUpdateResource c o s).err with _ | e1 <;> simp [hr, hu, he]

/-- A run that returns no error has loaded every name and reconciled every
loaded document without error, each from the state its predecessors leave,
and ends in the state after all of them. -/
theorem ApplyK8sResource_ok_spec {σ : Type} (f : EmbedFS)
    (U : String → Except Error Unstructured) (c : client.Client σ Unstructured)
    (files : List String) (s : σ)
    (h : (ApplyK8sResource f U c files s).err = none) :
    ∃ objs, files.map (ApplyK8sResource.load f U) = objs.map some
      ∧ (∀ p o q, objs = p ++ o :: q →
          (CreateOrUpdateResource c o (stateAfter c p s)).err = none)
      ∧ (ApplyK8sResource f U c files s).state = stateAfter c objs s := by
  induction files generalizing s with
  | nil =>
    refine ⟨[], rfl, ?_, rfl⟩
    intro p o q hsplit
    simp at hsplit
  | cons x files ih =>
    rcases hx : (ApplyK8sResource.iteration f U c x s).err with _ | e1
    · have h1 := ApplyK8sResource_cons_ok f U c x files s hx
      obtain ⟨obj, hobj⟩ := load_isSome_of_iteration f U c x s hx
      have hit := iteration_of_loaded f U c x s obj hobj
      obtain ⟨objs, hmap, hall, hstate⟩ := ih _ (h1.1 ▸ h)
      refine ⟨obj :: objs, by simp [hobj, hmap], ?_, ?_⟩
      · intro p o q hsplit
        cases p with
        | nil =>
          simp only [List.nil_append, List.cons.injEq] at hsplit
          rw [← hsplit.1]
          show (CreateOrUpdateResource c obj s).err = none
          rw [← hit.1]
          exact hx
        | cons a p =>
          simp only [List.cons_append, List.cons.injEq] at hsplit
          have := hall p o q hsplit.2
          rw [hit.2] at this
          rw [← hsplit.1]
          exact this
      · rw [h1.2.1, hstate, hit.2]
        rfl
    · have h1 := ApplyK8sResource_cons_err f U c x files s e1 hx
      rw [h1.1] at h
      cases h

/-- When every name loads and every loaded document reconciles without
error, each from the state its predecessors leave, the run returns no
error. -/
theorem ApplyK8sResource_ok_of_spec {σ : Type} (f : EmbedFS)
    (U : String → Except Error Unstructured) (c : client.Client σ Unstructured)
    (files : List String) (s : σ) (objs : List Unstructured)
    (hmap : files.map (ApplyK8sResource.load f U) = objs.map some)
    (hall : ∀ p o q, objs = p ++ o :: q →
      (CreateOrUpdateResource c o (stateAfter c p s)).err = none) :
    (ApplyK8sResource f U c files s).err = none := by
  induction files generalizing s objs with
  | nil => rfl
  | cons x files ih =>
    cases objs with
    | nil => simp at hmap
    | cons obj objs =>
      simp only [List.map_cons, List.cons.injEq] at hmap
      have hit := iteration_of_loaded f U c x s obj hmap.1
      have hx : (ApplyK8sResource.iteration f U c x s).err = none := by
        rw [hit.1]
        exact hall [] obj objs rfl
      have h1 := ApplyK8sResource_cons_ok f U c x files s hx
      rw [h1.1]
      refine ih _ objs hmap.2 ?_
      intro p o q hsplit
      have := hall (obj :: p) o q (by rw [hsplit, List.cons_append])
      rw [hit.2]
      exact this

/-- A run whose names in `pre` succeed and whose iteration for `x`, from the
state they leave, returns `e` stops there: it returns `e`, has read exactly
`pre ++ [x]`, and nothing of `post` shows in its state or trace. -/
theorem ApplyK8sResource_fail_at {σ : Type} (f : EmbedFS)
    (U : String → Except Error Unstructured) (c : client.Client σ Unstructured)
    (pre : List String) (x : String) (post : List String) (s : σ) (e : Error)
    (hpre : (ApplyK8sResource f U c pre s).err = none)
    (hx : (ApplyK8sResource.iteration f U c x (ApplyK8sResource f U c pre s).state).err
      = some e) :
    (ApplyK8sResource f U c (pre ++ x :: post) s).err = some e
      ∧ (ApplyK8sResource f U c (pre ++ x :: post) s).state
          = (ApplyK8sResource.iteration f U c x (ApplyK8sResource f U c pre s).state).state
      ∧ (ApplyK8sResource f U c (pre ++ x :: post) s).trace
          = (ApplyK8sResource f U c pre s).trace
            ++ (ApplyK8sResource.iteration f U c x (ApplyK8sResource f U c pre s).state).trace
      ∧ readNames (ApplyK8sResource f U c (pre ++ x :: post) s).trace = pre ++ [x]
      ∧ reconciled (ApplyK8sResource f U c (pre ++ x :: post) s).trace
          = reconciled (ApplyK8sResource f U c pre s).trace
            ++ (ApplyK8sResource.load f U x).toList := by
  have ha := ApplyK8sResource_append f U c pre (x :: post) s hpre
  have hc := ApplyK8sResource_cons_err f U c x post _ e hx
  have hok := ApplyK8sResource_ok_trace f U c pre s hpre
  have htr : (ApplyK8sResource f U c (pre ++ x :: post) s).trace
      = (ApplyK8sResource f U c pre s).trace
        ++ (ApplyK8sResource.iteration f U c x (ApplyK8sResource f U c pre s).state).trace := by
    rw [ha.2.2, hc.2.2]
  refine ⟨by rw [ha.1, hc.1], by rw [ha.2.1, hc.2.1], htr, ?_, ?_⟩
  · have hr := readNames_iteration f U c x (ApplyK8sResource f U c pre s).state
    have h1 := hok.1
    unfold readNames at hr h1 ⊢
    rw [htr, List.filterMap_append, hr, h1]
  · have hr := reconciled_iteration f U c x (ApplyK8sResource f U c pre s).state
    unfold reconciled at hr ⊢
    rw [htr, List.filterMap_append, hr]

/-- C6: `ApplyK8sResource` handles the names strictly in list order and stops
at the first name whose read, parse or reconcile step fails.
(1) It returns nil exactly when every name loads and every loaded document is
reconciled by `CreateOrUpdateResource` without error, each from the state its
predecessors leave.  (2) Then every name was read and every document
reconciled, in list order.  (3) When it returns an error `e`, the list splits
as `pre ++ x :: post` where every name of `pre` loaded and reconciled without
error and the step of `x` failed with `e` in the read, in the parse or in the
reconcile; the names read are exactly `pre ++ [x]`; the documents handed to
`CreateOrUpdateResource` are those of `pre` followed by that of `x` when `x`
loaded (it failed in reconcile); and error, state and trace are those of the
run over `pre ++ [x]`, so nothing of `post` is read or reconciled.
(4) Conversely such a split forces the result: the error returned is the
error of that first failure. -/
theorem ApplyK8sResource_stops_at_first_failure {σ : Type} (f : EmbedFS)
    (U : String → Except Error Unstructured) (c : client.Client σ Unstructured)
    (files : List String) (s : σ) :
    ((ApplyK8sResource f U c files s).err = none ↔
        ∃ objs, files.map (ApplyK8sResource.load f U) = objs.map some
          ∧ ∀ p o q, objs = p ++ o :: q →
              (CreateOrUpdateResource c o (stateAfter c p s)).err = none)
      ∧ ((ApplyK8sResource f U c files s).err = none →
          readNames (ApplyK8sResource f U c files s).trace = files
          ∧ (reconciled (ApplyK8sResource f U c files s).trace).map some
              = files.map (ApplyK8sResource.load f U)
          ∧ (ApplyK8sResource f U c files s).state
              = stateAfter c (reconciled (ApplyK8sResource f U c files s).trace) s)
      ∧ (∀ e, (ApplyK8sResource f U c files s).err = some e →
          ∃ pre x post objs, files = pre ++ x :: post
            ∧ pre.map (ApplyK8sResource.load f U) = objs.map some
            ∧ (∀ p o q, objs = p ++ o :: q →
                (CreateOrUpdateResource c o (stateAfter c p s)).err = none)
            ∧ (f.ReadFile x = Except.error e
                ∨ (∃ data, f.ReadFile x = Except.ok data ∧ U data = Except.error e)
                ∨ (∃ obj, ApplyK8sResource.load f U x = some obj
                    ∧ (CreateOrUpdateResource c obj (stateAfter c objs s)).err = some e))
            ∧ readNames (ApplyK8sResource f U c files s).trace = pre ++ [x]
            ∧ reconciled (ApplyK8sResource f U c files s).trace
                = objs ++ (ApplyK8sResource.load f U x).toList
            ∧ (ApplyK8sResource f U c files s).state
                = stateAfter c (objs ++ (ApplyK8sResource.load f U x).toList) s
            ∧ (ApplyK8sResource f U c (pre ++ [x]) s).err = some e
            ∧ (ApplyK8sResource f U c (pre ++ [x]) s).state
                = (ApplyK8sResource f U c files s).state
            ∧ (ApplyK8sResource f U c (pre ++ [x]) s).trace
                = (ApplyK8sResource f U c files s).trace)
      ∧ (∀ pre x post objs e, files = pre ++ x :: post →
          pre.map (ApplyK8sResource.load f U) = objs.map some →
          (∀ p o q, objs = p ++ o :: q →
            (CreateOrUpdateResource c o (stateAfter c p s)).err = none) →
          (f.ReadFile x = Except.error e
            ∨ (∃ data, f.ReadFile x = Except.ok data ∧ U data = Except.error e)
            ∨ (∃ obj, ApplyK8sResource.load f U x = some obj
                ∧ (CreateOrUpdateResource c obj (stateAfter c objs s)).err = some e)) →
          (ApplyK8sResource f U c files s).err = some e
            ∧ readNames (ApplyK8sResource f U c files s).trace = pre ++ [x]
            ∧ reconciled (ApplyK8sResource f U c files s).trace
                = objs ++ (ApplyK8sResource.load f U x).toList) := by
  have hinj : ∀ a b : List Unstructured, a.map some = b.map some → a = b :=
    fun a b h => List.map_injective_iff.mpr (Option.some_injective _) h
  -- what a successful run over a list says about that list
  have hokfull : ∀ l : List String, (ApplyK8sResource f U c l s).err = none →
      l.map (ApplyK8sResource.load f U)
          = (reconciled (ApplyK8sResource f U c l s).trace).map some
        ∧ (∀ p o q, reconciled (ApplyK8sResource f U c l s).trace = p ++ o :: q →
            (CreateOrUpdateResource c o (stateAfter c p s)).err = none)
        ∧ (ApplyK8sResource f U c l s).state
            = stateAfter c (reconciled (ApplyK8sResource f U c l s).trace) s := by
    intro l hl
    obtain ⟨objs, hmap, hall, hstate⟩ := ApplyK8sResource_ok_spec f U c l s hl
    have htr := (ApplyK8sResource_ok_trace f U c l s hl).2
    have heq : reconciled (ApplyK8sResource f U c l s).trace = objs :=
      hinj _ _ (htr.trans hmap)
    rw [heq]
    exact ⟨hmap, hall, hstate⟩
  refine ⟨⟨?_, ?_⟩, ?_, ?_, ?_⟩
  · intro h
    obtain ⟨objs, hmap, hall, _⟩ := ApplyK8sResource_ok_spec f U c files s h
    exact ⟨objs, hmap, hall⟩
  · rintro ⟨objs, hmap, hall⟩
    exact ApplyK8sResource_ok_of_spec f U c files s objs hmap hall
  · intro h
    have h1 := ApplyK8sResource_ok_trace f U c files s h
    exact ⟨h1.1, h1.2, (hokfull files h).2.2⟩
  · intro e herr
    obtain ⟨pre, x, post, hsplit, hpre, hx⟩ := ApplyK8sResource_first_failure f U c files s e herr
    subst hsplit
    obtain ⟨hmap, hall, hstate⟩ := hokfull pre hpre
    have hfail := ApplyK8sResource_fail_at f U c pre x post s e hpre hx
    have hfail1 := ApplyK8sResource_fail_at f U c pre x [] s e hpre hx
    have hcases := (iteration_err_iff f U c x _ e).mp hx
    rw [hstate] at hcases
    refine ⟨pre, x, post, reconciled (ApplyK8sResource f U c pre s).trace, rfl, hmap, hall,
      hcases, hfail.2.2.2.1, hfail.2.2.2.2, ?_, hfail1.1, ?_, ?_⟩
    · rw [hfail.2.1, iteration_state, hstate]
      unfold stateAfter
      rw [List.foldl_append]
    · rw [hfail1.2.1, hfail.2.1]
    · rw [hfail1.2.2.1, hfail.2.2.1]
  · intro pre x post objs e hsplit hmap hall hcases
    subst hsplit
    have hpre := ApplyK8sResource_ok_of_spec f U c pre s objs hmap hall
    obtain ⟨hmap1, _, hstate⟩ := hokfull pre hpre
    have heq : reconciled (ApplyK8sResource f U c pre s).trace = objs :=
      hinj _ _ (hmap1.symm.trans hmap)
    rw [heq] at hstate
    have hx : (ApplyK8sResource.iteration f U c x (ApplyK8sResource f U c pre s).state).err
        = some e := by
      rw [hstate]
      exact (iteration_err_iff f U c x _ e).mpr hcases
    have hfail := ApplyK8sResource_fail_at f U c pre x post s e hpre hx
    refine ⟨hfail.1, hfail.2.2.2.1, ?_⟩
    rw [hfail.2.2.2.2, heq]

/-- C6 at the names "a", "b", "c" where loading "b" fails: "a" is read and
reconciled (one `Create` on the empty cluster), "b" is read and fails, "c" is
never read, and the error returned is the one of "b". -/
theorem ApplyK8sResource_stops_at_first_failure_witness :
    (ApplyK8sResource abcFiles sampleUnmarshal memCluster ["a", "b", "c"] []).err
        = some (Error.path "open" "b" "file does not exist")
      ∧ readNames (ApplyK8sResource abcFiles sampleUnmarshal memCluster ["a", "b", "c"] []).trace
        = ["a", "b"]
      ∧ reconciled (ApplyK8sResource abcFiles sampleUnmarshal memCluster ["a", "b", "c"] []).trace
        = [sampleNamespace]
      ∧ (ApplyK8sResource abcFiles sampleUnmarshal memCluster ["a", "b", "c"] []).state
        = [sampleNamespace]
      ∧ (ApplyK8sResource abcFiles sampleUnmarshal memCluster ["a", "b", "c"] []).trace
        = (ApplyK8sResource abcFiles sampleUnmarshal memCluster ["a", "b"] []).trace
      ∧ (ApplyK8sResource abcFiles sampleUnmarshal memCluster ["a", "b", "c"] []).trace
        = [Event.ReadFile "a", Event.Unmarshal "kind: Namespace",
           Event.Get { Name := "open-cluster-management-agent", Namespace := "" } sampleNamespace,
           Event.Create sampleNamespace,
           Event.ReadFile "b",
           Event.klogError [LogArg.err (Error.path "open" "b" "file does not exist"),
             LogArg.str "Fail to read embed file ", LogArg.str "name:", LogArg.str "b"]] :=
  have h := (ApplyK8sResource_stops_at_first_failure abcFiles sampleUnmarshal memCluster
    ["a", "b", "c"] []).2.2.2 ["a"] "b" ["c"] [sampleNamespace]
    (Error.path "open" "b" "file does not exist") rfl rfl
    (by
      intro p o q hsplit
      cases p with
      | nil =>
        simp only [List.nil_append, List.cons.injEq] at hsplit
        rw [← hsplit.1]
        rfl
      | cons a p => simp at hsplit)
    (Or.inl rfl)
  ⟨h.1, h.2.1, h.2.2, rfl, rfl, rfl⟩

/-- A run of `ApplyK8sResource` that stops at a failed reconcile: the second
name loads and the cluster handle refuses its `Get`; the error returned is
that of `CreateOrUpdateResource`, and the third name is never read. -/
theorem ApplyK8sResource_stops_at_failed_reconcile :
    (ApplyK8sResource abcFiles sampleUnmarshal forbiddenClient ["a", "c"] ()).err
        = some (Error.status "Forbidden" 403 "get is forbidden")
      ∧ (ApplyK8sResource abcFiles sampleUnmarshal forbiddenClient ["a", "c"] ()).err
        = (CreateOrUpdateResource forbiddenClient sampleNamespace ()).err
      ∧ readNames (ApplyK8sResource abcFiles sampleUnmarshal forbiddenClient ["a", "c"] ()).trace
        = ["a"]
      ∧ reconciled (ApplyK8sResource abcFiles sampleUnmarshal forbiddenClient ["a", "c"] ()).trace
        = [sampleNamespace] := by
  refine ⟨rfl, rfl, rfl, rfl⟩

/-! ## The loading step: what a failure returns -/

/-- Every error of `ReadFile` is a path error that names the file asked for. -/
theorem ReadFile_error_names_file (f : EmbedFS) (name : String) (e : Error)
    (h : f.ReadFile name = Except.error e) : ∃ op msg, e = Error.path op name msg := by
  unfold EmbedFS.ReadFile at h
  rcases hl : f.files.lookup name with _ | data
  · rw [hl] at h
    by_cases hd : f.isDir name = true
    · simp only [hd, if_true] at h
      exact ⟨"read", "is a directory", (Except.error.inj h).symm⟩
    · simp only [hd] at h
      exact ⟨"open", "file does not exist", (Except.error.inj h).symm⟩
  · rw [hl] at h
    cases h

/-- C9, against the claim: two names whose documents hold the same malformed
bytes make `ApplyK8sResource` return one and the same error, the decoder's, so
no reading of an error value gives back the name that failed to load. -/
theorem ApplyK8sResource_parse_error_names_no_file :
    (ApplyK8sResource twinFiles sampleUnmarshal memCluster ["resources/a.yaml"] []).err
        = (ApplyK8sResource twinFiles sampleUnmarshal memCluster ["resources/b.yaml"] []).err
      ∧ ¬ ∃ nameOf : Error → String,
          ∀ name ∈ ["resources/a.yaml", "resources/b.yaml"], ∀ e,
            (ApplyK8sResource twinFiles sampleUnmarshal memCluster [name] []).err = some e →
              nameOf e = name := by
  refine ⟨rfl, ?_⟩
  rintro ⟨nameOf, h⟩
  have ha := h "resources/a.yaml" (by simp) _ rfl
  have hb := h "resources/b.yaml" (by simp) _ rfl
  have hab : "resources/a.yaml" = "resources/b.yaml" := ha.symm.trans hb
  exact absurd hab (by decide)

/-- C9, as amended: when the names before `file` succeed and the decoder
returns no path error, a read failure and a parse failure of the loading step
are returned to the caller as distinct error kinds: a read failure returns
the error of `ReadFile` unchanged, a path error that names `file`; a parse
failure returns the error of the decoder unchanged, which is no path error,
so the two returned errors are never equal.  The parse error is what the
decoder says of the bytes and so the same for every name holding these
bytes; the name of the resource is attached to it in the `klog.Error`
record emitted before returning, not in the error returned. -/
theorem ApplyK8sResource_load_failure_reported {σ : Type} (f : EmbedFS)
    (U : String → Except Error Unstructured) (c : client.Client σ Unstructured)
    (pre : List String) (file : String) (post : List String) (s : σ)
    (hpre : (ApplyK8sResource f U c pre s).err = none)
    (hU : ∀ data e, U data = Except.error e → ∀ op path msg, e ≠ Error.path op path msg) :
    (∀ e, f.ReadFile file = Except.error e →
        (∃ op msg, e = Error.path op file msg)
        ∧ (ApplyK8sResource f U c (pre ++ file :: post) s).err = some e
        ∧ (ApplyK8sResource f U c (pre ++ file :: post) s).trace
            = (ApplyK8sResource f U c pre s).trace
              ++ [Event.ReadFile file,
                  Event.klogError [LogArg.err e, LogArg.str "Fail to read embed file ",
                    LogArg.str "name:", LogArg.str file]]
        ∧ (ApplyK8sResource f U c (pre ++ file :: post) s).state
            = (ApplyK8sResource f U c pre s).state)
      ∧ (∀ data e, f.ReadFile file = Except.ok data → U data = Except.error e →
        (∀ op path msg, e ≠ Error.path op path msg)
        ∧ (ApplyK8sResource f U c (pre ++ file :: post) s).err = some e
        ∧ (ApplyK8sResource f U c (pre ++ file :: post) s).trace
            = (ApplyK8sResource f U c pre s).trace
              ++ [Event.ReadFile file, Event.Unmarshal data,
                  Event.klogError [LogArg.err e, LogArg.str "Fail to unmarshal file",
                    LogArg.str "name", LogArg.str file]]
        ∧ (ApplyK8sResource f U c (pre ++ file :: post) s).state
            = (ApplyK8sResource f U c pre s).state)
      ∧ (∀ other post2 e data, f.ReadFile file = Except.error e →
          f.ReadFile other = Except.ok data → (∃ e2, U data = Except.error e2) →
          (ApplyK8sResource f U c (pre ++ file :: post) s).err
            ≠ (ApplyK8sResource f U c (pre ++ other :: post2) s).err)
      ∧ (∀ other post2 data e, f.ReadFile file = Except.ok data →
          f.ReadFile other = Except.ok data → U data = Except.error e →
          (ApplyK8sResource f U c (pre ++ other :: post2) s).err
            = (ApplyK8sResource f U c (pre ++ file :: post) s).err) := by
  have hread : ∀ (x : String) (q : List String) (e : Error), f.ReadFile x = Except.error e →
      (ApplyK8sResource f U c (pre ++ x :: q) s).err = some e
      ∧ (ApplyK8sResource f U c (pre ++ x :: q) s).trace
          = (ApplyK8sResource f U c pre s).trace
            ++ [Event.ReadFile x,
                Event.klogError [LogArg.err e, LogArg.str "Fail to read embed file ",
                  LogArg.str "name:", LogArg.str x]]
      ∧ (ApplyK8sResource f U c (pre ++ x :: q) s).state
          = (ApplyK8sResource f U c pre s).state := by
    intro x q e hr
    have ha := ApplyK8sResource_append f U c pre (x :: q) s hpre
    have hit : ApplyK8sResource.iteration f U c x (ApplyK8sResource f U c pre s).state
        = { err := some e, state := (ApplyK8sResource f U c pre s).state,
            trace := [Event.ReadFile x,
              Event.klogError [LogArg.err e, LogArg.str "Fail to read embed file ",
                LogArg.str "name:", LogArg.str x]] } := by
      simp [ApplyK8sResource.iteration, hr]
    have hc := ApplyK8sResource_cons_err f U c x q _ e (by rw [hit])
    refine ⟨?_, ?_, ?_⟩
    · rw [ha.1, hc.1]
    · rw [ha.2.2, hc.2.2, hit]
    · rw [ha.2.1, hc.2.1, hit]
  have hparse : ∀ (x : String) (q : List String) (data : String) (e : Error),
      f.ReadFile x = Except.ok data → U data = Except.error e →
      (ApplyK8sResource f U c (pre ++ x :: q) s).err = some e
      ∧ (ApplyK8sResource f U c (pre ++ x :: q) s).trace
          = (ApplyK8sResource f U c pre s).trace
            ++ [Event.ReadFile x, Event.Unmarshal data,
                Event.klogError [LogArg.err e, LogArg.str "Fail to unmarshal file",
                  LogArg.str "name", LogArg.str x]]
      ∧ (ApplyK8sResource f U c (pre ++ x :: q) s).state
          = (ApplyK8sResource f U c pre s).state := by
    intro x q data e hr hu
    have ha := ApplyK8sResource_append f U c pre (x :: q) s hpre
    have hit : ApplyK8sResource.iteration f U c x (ApplyK8sResource f U c pre s).state
        = { err := some e, state := (ApplyK8sResource f U c pre s).state,
            trace := [Event.ReadFile x, Event.Unmarshal data,
              Event.klogError [LogArg.err e, LogArg.str "Fail to unmarshal file",
                LogArg.str "name", LogArg.str x]] } := by
      simp [ApplyK8sResource.iteration, hr, hu]
    have hc := ApplyK8sResource_cons_err f U c x q _ e (by rw [hit])
    refine ⟨?_, ?_, ?_⟩
    · rw [ha.1, hc.1]
    · rw [ha.2.2, hc.2.2, hit]
    · rw [ha.2.1, hc.2.1, hit]
  refine ⟨?_, ?_, ?_, ?_⟩
  · intro e hr
    exact ⟨ReadFile_error_names_file f file e hr, hread file post e hr⟩
  · intro data e hr hu
    exact ⟨hU data e hu, hparse file post data e hr hu⟩
  · rintro other post2 e data hr hr2 ⟨e2, hu⟩
    rw [(hread file post e hr).1, (hparse other post2 data e2 hr2 hu).1]
    intro heq
    obtain ⟨op, msg, hpath⟩ := ReadFile_error_names_file f file e hr
    have he : e = e2 := Option.some.inj heq
    exact hU data e2 hu op file msg (he ▸ hpath)
  · intro other post2 data e hr hr2 hu
    rw [(hparse other post2 data e hr2 hu).1, (hparse file post data e hr hu).1]

/-- The decoder of the examples returns no path error. -/
theorem sampleUnmarshal_no_path_error :
    ∀ data e, sampleUnmarshal data = Except.error e →
      ∀ op path msg, e ≠ Error.path op path msg := by
  intro data e h op path msg hp
  unfold sampleUnmarshal at h
  by_cases hd : data = "kind: Namespace"
  · simp [hd] at h
  · simp only [hd, if_false] at h
    rw [hp] at h
    cases h

/-- C9 as amended, at concrete inputs: after "a" succeeds, the missing "b"
returns the path error naming "b"; the malformed "resources/a.yaml" returns
the decoder's error, which is no path error, and its name is in the log
record only; the two errors returned differ. -/
theorem ApplyK8sResource_load_failure_reported_witness :
    ((ApplyK8sResource abcFiles sampleUnmarshal memCluster ["a"] []).err = none
      ∧ (ApplyK8sResource abcFiles sampleUnmarshal memCluster (["a"] ++ "b" :: ["c"]) []).err
          = some (Error.path "open" "b" "file does not exist"))
    ∧ ((ApplyK8sResource twinFiles sampleUnmarshal memCluster
          ([] ++ "resources/a.yaml" :: []) []).err
          = some (Error.other
              "error converting YAML to JSON: yaml: did not find expected node content")
      ∧ (ApplyK8sResource twinFiles sampleUnmarshal memCluster
          ([] ++ "resources/a.yaml" :: []) []).trace
          = (ApplyK8sResource twinFiles sampleUnmarshal memCluster [] []).trace
            ++ [Event.ReadFile "resources/a.yaml", Event.Unmarshal "kind: [",
              Event.klogError [LogArg.err (Error.other
                  "error converting YAML to JSON: yaml: did not find expected node content"),
                LogArg.str "Fail to unmarshal file", LogArg.str "name",
                LogArg.str "resources/a.yaml"]])
    ∧ (ApplyK8sResource twinFiles sampleUnmarshal memCluster
          ([] ++ "resources/missing.yaml" :: []) []).err
        ≠ (ApplyK8sResource twinFiles sampleUnmarshal memCluster
          ([] ++ "resources/a.yaml" :: []) []).err :=
  have h1 := (ApplyK8sResource_load_failure_reported abcFiles sampleUnmarshal memCluster
    ["a"] "b" ["c"] [] rfl sampleUnmarshal_no_path_error).1
    (Error.path "open" "b" "file does not exist") rfl
  have h2 := (ApplyK8sResource_load_failure_reported twinFiles sampleUnmarshal memCluster
    [] "resources/a.yaml" [] [] rfl sampleUnmarshal_no_path_error).2.1 "kind: ["
    (Error.other "error converting YAML to JSON: yaml: did not find expected node content")
    rfl rfl
  have h3 := (ApplyK8sResource_load_failure_reported twinFiles sampleUnmarshal memCluster
    [] "resources/missing.yaml" [] [] rfl sampleUnmarshal_no_path_error).2.2.1
    "resources/a.yaml" []
    (Error.path "open" "resources/missing.yaml" "file does not exist") "kind: [" rfl rfl
    ⟨Error.other "error converting YAML to JSON: yaml: did not find expected node content",
      rfl⟩
  ⟨⟨rfl, h1.2.1⟩, ⟨h2.2.1, h2.2.2.1⟩, h3⟩

end K8s
